import Mathlib

/-!
Verification of the AstroVoice session-orchestration layer (src/script.js).

The JavaScript classes are shallowly embedded as Lean structures and pure
state-transformer functions.  JS numbers are modelled as exact rationals
(`ℚ`) where the source only uses field arithmetic and comparisons, and as
real numbers (`ℝ`) where `Math.sqrt` is involved.  JS `Map` objects are
modelled as association lists with `Map`-style get/set/delete operations.
Side effects that do not touch the modelled state (console logging, DOM
updates, Tone.js DSP-node wiring, actual SDP payloads) are out of scope and
noted next to each definition.
-/

namespace AstroVoice

/-! ### DistanceCalculator (src/script.js lines 949-965)

`volumeFromDistance(distance)` reads the mutable `this.maxDistance`; it is
embedded with `maxDistance` as an explicit first argument.  The definition
is generic over a linear ordered field so the same source function can be
instantiated at `ℚ` (exact arithmetic facts) and at `ℝ` (where it consumes
the `Math.sqrt`-based distance). -/

def volumeFromDistance {α : Type*} [LinearOrderedField α] (maxDistance distance : α) : α :=
  if maxDistance < distance then 0 else (1 - distance / maxDistance) ^ 2

/-- `calculate(pos1, pos2)` operates on 3D positions. -/
structure Vec3 where
  x : ℝ
  y : ℝ
  z : ℝ

/-- `DistanceCalculator.calculate` (src/script.js lines 954-959):
`Math.sqrt(dx*dx + dy*dy + dz*dz)`. -/
noncomputable def calculate (pos1 pos2 : Vec3) : ℝ :=
  Real.sqrt ((pos1.x - pos2.x) ^ 2 + (pos1.y - pos2.y) ^ 2 + (pos1.z - pos2.z) ^ 2)

/-- The gain returned by `volumeFromDistance` is never negative. -/
theorem volumeFromDistance_nonneg {α : Type*} [LinearOrderedField α]
    (maxDistance distance : α) : 0 ≤ volumeFromDistance maxDistance distance := by
  unfold volumeFromDistance
  split
  · exact le_refl 0
  · exact sq_nonneg _

/-- C1: for every distance `d ≥ 0` and `maxDistance M > 0`, `volumeFromDistance`
returns `0` when `d ≥ M` and otherwise `((M - d) / M)^2`; in particular for
`M = 20` it returns `0.25` at `d = 10`, `0.5625` at `d = 5` and `1.0` at
`d = 0`. -/
theorem volumeFromDistance_spec (distance maxDistance : ℚ)
    (hd : 0 ≤ distance) (hM : 0 < maxDistance) :
    (maxDistance ≤ distance → volumeFromDistance maxDistance distance = 0) ∧
    (distance < maxDistance →
      volumeFromDistance maxDistance distance =
        ((maxDistance - distance) / maxDistance) ^ 2) ∧
    volumeFromDistance (20 : ℚ) 10 = 1/4 ∧
    volumeFromDistance (20 : ℚ) 5 = 9/16 ∧
    volumeFromDistance (20 : ℚ) 0 = 1 := by
  refine ⟨?_, ?_, ?_, ?_, ?_⟩
  · intro hge
    unfold volumeFromDistance
    rcases lt_or_eq_of_le hge with hlt | heq
    · simp [hlt]
    · rw [if_neg (by simp [← heq])]
      rw [← heq, div_self (ne_of_gt hM)]
      ring
  · intro hlt
    unfold volumeFromDistance
    rw [if_neg (by exact not_lt_of_gt hlt)]
    rw [sub_div, div_self (ne_of_gt hM)]
  · norm_num [volumeFromDistance]
  · norm_num [volumeFromDistance]
  · norm_num [volumeFromDistance]

theorem volumeFromDistance_spec_witness :
    (0 : ℚ) ≤ 10 ∧ (0 : ℚ) < 20 ∧
    volumeFromDistance (20 : ℚ) 10 = 1/4 ∧ volumeFromDistance (20 : ℚ) 5 = 9/16 := by
  have h := volumeFromDistance_spec 10 20 (by decide) (by decide)
  exact ⟨by decide, by decide, h.2.2.1, h.2.2.2.1⟩

/-- C2: for every `maxDistance M > 0`, `volumeFromDistance` is monotonically
non-increasing in the distance over `d ≥ 0` and strictly decreasing on
`0 ≤ d < M`. -/
theorem volumeFromDistance_monotone (M : ℚ) (hM : 0 < M) :
    (∀ d1 d2 : ℚ, 0 ≤ d1 → d1 ≤ d2 →
      volumeFromDistance M d2 ≤ volumeFromDistance M d1) ∧
    (∀ d1 d2 : ℚ, 0 ≤ d1 → d1 < d2 → d2 < M →
      volumeFromDistance M d2 < volumeFromDistance M d1) := by
  constructor
  · intro d1 d2 _ h12
    by_cases h2 : M < d2
    · calc volumeFromDistance M d2 = 0 := by simp [volumeFromDistance, h2]
        _ ≤ volumeFromDistance M d1 := volumeFromDistance_nonneg M d1
    · push_neg at h2
      have h1 : ¬ M < d1 := not_lt_of_ge (le_trans h12 h2)
      unfold volumeFromDistance
      rw [if_neg (not_lt_of_ge h2), if_neg h1]
      have ha : (0 : ℚ) ≤ 1 - d2 / M := by
        have : d2 / M ≤ 1 := (div_le_one hM).mpr h2
        linarith
      have hab : 1 - d2 / M ≤ 1 - d1 / M := by
        have : d1 / M ≤ d2 / M := by gcongr
        linarith
      exact pow_le_pow_left ha hab 2
  · intro d1 d2 _ h12 h2M
    have h1M : d1 < M := lt_trans h12 h2M
    unfold volumeFromDistance
    rw [if_neg (not_lt_of_ge (le_of_lt h2M)), if_neg (not_lt_of_ge (le_of_lt h1M))]
    have ha : (0 : ℚ) ≤ 1 - d2 / M := by
      have : d2 / M ≤ 1 := (div_le_one hM).mpr (le_of_lt h2M)
      linarith
    have hab : 1 - d2 / M < 1 - d1 / M := by
      have : d1 / M < d2 / M := by gcongr
      linarith
    exact pow_lt_pow_left hab ha (by norm_num)

theorem volumeFromDistance_monotone_witness :
    (0 : ℚ) < 20 ∧ (0 : ℚ) ≤ 5 ∧ (5 : ℚ) < 10 ∧ (10 : ℚ) < 20 ∧
    volumeFromDistance (20 : ℚ) 10 < volumeFromDistance (20 : ℚ) 5 := by
  have h := (volumeFromDistance_monotone 20 (by decide)).2 5 10 (by decide) (by decide) (by decide)
  exact ⟨by decide, by decide, by decide, by decide, h⟩

/-! ### JS `Map` model

JS `Map` objects (`participants`, `pendingNodes`, `peerConnections`) are
modelled as association lists.  `alGet`/`alSet`/`alDelete` mirror
`Map.get`/`Map.set`/`Map.delete`: `set` replaces the entry in place when the
key is present and appends otherwise, `delete` removes the entry. -/

def alGet {β : Type*} : List (String × β) → String → Option β
  | [], _ => none
  | e :: rest, k => if e.1 = k then some e.2 else alGet rest k

def alSet {β : Type*} : List (String × β) → String → β → List (String × β)
  | [], k, v => [(k, v)]
  | e :: rest, k, v => if e.1 = k then (k, v) :: rest else e :: alSet rest k v

def alDelete {β : Type*} : List (String × β) → String → List (String × β)
  | [], _ => []
  | e :: rest, k => if e.1 = k then alDelete rest k else e :: alDelete rest k

@[simp] theorem alGet_alSet_self {β : Type*} (m : List (String × β)) (k : String) (v : β) :
    alGet (alSet m k v) k = some v := by
  induction m with
  | nil => simp [alSet, alGet]
  | cons e rest ih =>
    by_cases h : e.1 = k
    · simp [alSet, h, alGet]
    · simp [alSet, h, alGet, ih]

theorem alGet_alSet_ne {β : Type*} (m : List (String × β)) (k k' : String) (v : β)
    (h : k' ≠ k) : alGet (alSet m k v) k' = alGet m k' := by
  induction m with
  | nil => simp [alSet, alGet, Ne.symm h]
  | cons e rest ih =>
    by_cases he : e.1 = k
    · simp only [alSet, if_pos he, alGet,
        if_neg (Ne.symm h), if_neg (show ¬ e.1 = k' by rw [he]; exact Ne.symm h)]
    · simp only [alSet, if_neg he, alGet]
      split
      · rfl
      · exact ih

@[simp] theorem alGet_alDelete_self {β : Type*} (m : List (String × β)) (k : String) :
    alGet (alDelete m k) k = none := by
  induction m with
  | nil => simp [alDelete, alGet]
  | cons e rest ih =>
    by_cases h : e.1 = k
    · simp [alDelete, h, ih]
    · simp [alDelete, h, alGet, ih]

theorem alGet_alDelete_ne {β : Type*} (m : List (String × β)) (k k' : String)
    (h : k' ≠ k) : alGet (alDelete m k) k' = alGet m k' := by
  induction m with
  | nil => simp [alDelete]
  | cons e rest ih =>
    by_cases he : e.1 = k
    · simp only [alDelete, if_pos he, ih, alGet,
        if_neg (show ¬ e.1 = k' by rw [he]; exact Ne.symm h)]
    · simp only [alDelete, if_neg he, alGet]
      split
      · rfl
      · exact ih

/-! ### Participant (src/script.js lines 496-571)

Audio-graph handles (`gainNode`, `audioElement`, `source`) are modelled as
opaque resource identifiers (`Option ℕ`): the claims only compare their
identities.  The `skinUrl` field (a cosmetic render URL) and the DOM/audio
side effects of `cleanup()` are out of scope. -/

structure Participant where
  gamertag : String
  isSelf : Bool
  distance : ℝ
  volume : ℝ
  gainNode : Option ℕ
  audioElement : Option ℕ
  source : Option ℕ
  customVolume : ℝ

/-- `new Participant(gamertag, isSelf)`: `distance = 0`, `volume = 1`,
all audio nodes `null`, `customVolume = 1`. -/
def Participant.new (gamertag : String) (isSelf : Bool) : Participant :=
  { gamertag := gamertag, isSelf := isSelf, distance := 0, volume := 1,
    gainNode := none, audioElement := none, source := none, customVolume := 1 }

def Participant.setAudioNodes (p : Participant)
    (gainNode audioElement source : Option ℕ) : Participant :=
  { p with gainNode := gainNode, audioElement := audioElement, source := source }

def Participant.setCustomVolume (p : Participant) (volume : ℝ) : Participant :=
  { p with customVolume := volume }

/-- `updateVolume(newVolume)` stores `newVolume * this.customVolume` (the
assignment to the gain node / audio element is a side effect on the handle,
not on the registry state). -/
def Participant.updateVolume (p : Participant) (newVolume : ℝ) : Participant :=
  { p with volume := newVolume * p.customVolume }

def Participant.updateDistance (p : Participant) (distance : ℝ) : Participant :=
  { p with distance := distance }

/-- The payload stored in `pendingNodes` by `addPendingNode` (src/script.js
lines 766-770): `{gainNode, audioElement, source}`. -/
structure NodeData where
  gainNode : Option ℕ
  audioElement : Option ℕ
  source : Option ℕ

/-! ### ParticipantsManager (src/script.js lines 577-639) -/

structure ParticipantsManager where
  participants : List (String × Participant)
  pendingNodes : List (String × NodeData)

/-- `ParticipantsManager.add` (src/script.js lines 583-604).  The
`pendingData.gainNode.gain.value = 1` write mutates the audio node itself,
not the registry, and is out of scope. -/
def ParticipantsManager.add (pm : ParticipantsManager) (gamertag : String)
    (isSelf : Bool) : ParticipantsManager :=
  if (alGet pm.participants gamertag).isSome then pm
  else
    let participant := Participant.new gamertag isSelf
    match alGet pm.pendingNodes gamertag with
    | some pendingData =>
        { participants := alSet pm.participants gamertag
            (participant.setAudioNodes pendingData.gainNode
              pendingData.audioElement pendingData.source),
          pendingNodes := alDelete pm.pendingNodes gamertag }
    | none =>
        { pm with participants := alSet pm.participants gamertag participant }

/-- `ParticipantsManager.remove` (src/script.js lines 606-612):
`participant.cleanup()` releases audio resources (out of scope) and the
entry is deleted; no-op when absent. -/
def ParticipantsManager.remove (pm : ParticipantsManager) (gamertag : String) :
    ParticipantsManager :=
  match alGet pm.participants gamertag with
  | some _ => { pm with participants := alDelete pm.participants gamertag }
  | none => pm

/-- `ParticipantsManager.clear` (src/script.js lines 626-630). -/
def ParticipantsManager.clear (_pm : ParticipantsManager) : ParticipantsManager :=
  { participants := [], pendingNodes := [] }

/-- `ParticipantsManager.addPendingNode` (src/script.js lines 632-634). -/
def ParticipantsManager.addPendingNode (pm : ParticipantsManager)
    (gamertag : String) (nodeData : NodeData) : ParticipantsManager :=
  { pm with pendingNodes := alSet pm.pendingNodes gamertag nodeData }

/-- Helper: creation with a pending entry attaches the pending resource and
deletes the pending entry. -/
theorem ParticipantsManager.add_of_pending (pm : ParticipantsManager)
    (gamertag : String) (isSelf : Bool) (nodeData : NodeData)
    (hpend : alGet pm.pendingNodes gamertag = some nodeData)
    (habs : alGet pm.participants gamertag = none) :
    alGet (pm.add gamertag isSelf).participants gamertag =
      some ((Participant.new gamertag isSelf).setAudioNodes
        nodeData.gainNode nodeData.audioElement nodeData.source) ∧
    alGet (pm.add gamertag isSelf).pendingNodes gamertag = none := by
  unfold ParticipantsManager.add
  rw [habs]
  simp only [Option.isSome_none, Bool.false_eq_true, if_false, hpend]
  exact ⟨alGet_alSet_self _ _ _, alGet_alDelete_self _ _⟩

/-- Helper: `remove` never touches the pending-resource map. -/
theorem ParticipantsManager.remove_pendingNodes (pm : ParticipantsManager)
    (gamertag : String) : (pm.remove gamertag).pendingNodes = pm.pendingNodes := by
  unfold ParticipantsManager.remove
  split <;> rfl

/-- Helper: after `remove`, the participant entry is absent. -/
theorem ParticipantsManager.remove_participants_self (pm : ParticipantsManager)
    (gamertag : String) : alGet (pm.remove gamertag).participants gamertag = none := by
  unfold ParticipantsManager.remove
  split
  · exact alGet_alDelete_self _ _
  · assumption

/-- C4: if an inbound audio resource is stored as pending for a gamertag
before the participant exists, then after `add(gamertag)` the created
participant's audio resource equals the previously pending one and the
pending entry no longer exists; `add` on an already-present gamertag is a
no-op. -/
theorem add_consumes_pending (pm : ParticipantsManager) (gamertag : String)
    (isSelf : Bool) (nodeData : NodeData) :
    (alGet pm.pendingNodes gamertag = some nodeData →
      alGet pm.participants gamertag = none →
      alGet (pm.add gamertag isSelf).participants gamertag =
        some ((Participant.new gamertag isSelf).setAudioNodes
          nodeData.gainNode nodeData.audioElement nodeData.source) ∧
      alGet (pm.add gamertag isSelf).pendingNodes gamertag = none) ∧
    ((alGet pm.participants gamertag).isSome = true → pm.add gamertag isSelf = pm) := by
  constructor
  · intro hpend habs
    exact pm.add_of_pending gamertag isSelf nodeData hpend habs
  · intro hpres
    unfold ParticipantsManager.add
    rw [if_pos hpres]

theorem add_consumes_pending_witness :
    (alGet (ParticipantsManager.mk []
        [("Steve", NodeData.mk none (some 7) none)]).pendingNodes "Steve" =
      some (NodeData.mk none (some 7) none)) ∧
    (alGet (ParticipantsManager.mk []
        [("Steve", NodeData.mk none (some 7) none)]).participants "Steve" = none) ∧
    alGet ((ParticipantsManager.mk []
        [("Steve", NodeData.mk none (some 7) none)]).add "Steve" false).participants "Steve" =
      some ((Participant.new "Steve" false).setAudioNodes none (some 7) none) ∧
    alGet ((ParticipantsManager.mk []
        [("Steve", NodeData.mk none (some 7) none)]).add "Steve" false).pendingNodes "Steve" =
      none := by
  have h := (add_consumes_pending
      (ParticipantsManager.mk [] [("Steve", NodeData.mk none (some 7) none)])
      "Steve" false (NodeData.mk none (some 7) none)).1 (by rfl) (by rfl)
  exact ⟨by rfl, by rfl, h.1, h.2⟩

/-- C10: `remove(gamertag)` deletes the participant entry only and leaves the
pending-resource map unchanged, so a pending audio resource stored under the
same gamertag survives the removal and can still be consumed by a later
`add`; `addPendingNode` never deletes a pending entry and `add` deletes no
pending entry other than the one it consumes. -/
theorem remove_preserves_pending (pm : ParticipantsManager) (g k : String)
    (b : Bool) (nd v : NodeData) :
    ((pm.remove g).pendingNodes = pm.pendingNodes) ∧
    (alGet pm.pendingNodes g = some nd →
      alGet ((pm.remove g).add g b).participants g =
        some ((Participant.new g b).setAudioNodes nd.gainNode nd.audioElement nd.source) ∧
      alGet ((pm.remove g).add g b).pendingNodes g = none) ∧
    (k ≠ g → alGet (pm.add g b).pendingNodes k = alGet pm.pendingNodes k) ∧
    ((alGet pm.pendingNodes k).isSome = true →
      (alGet (pm.addPendingNode g v).pendingNodes k).isSome = true) := by
  refine ⟨pm.remove_pendingNodes g, ?_, ?_, ?_⟩
  · intro hpend
    exact (pm.remove g).add_of_pending g b nd
      (by rw [pm.remove_pendingNodes g]; exact hpend)
      (pm.remove_participants_self g)
  · intro hk
    unfold ParticipantsManager.add
    split
    · rfl
    · split
      · exact alGet_alDelete_ne _ _ _ hk
      · rfl
  · intro hk
    unfold ParticipantsManager.addPendingNode
    by_cases hkg : k = g
    · subst hkg
      simp
    · simpa [alGet_alSet_ne _ _ _ _ hkg] using hk

theorem remove_preserves_pending_witness :
    (((ParticipantsManager.mk [("Steve", Participant.new "Steve" false)]
        [("Steve", NodeData.mk none (some 7) none)]).remove "Steve").pendingNodes =
      [("Steve", NodeData.mk none (some 7) none)]) ∧
    alGet (((ParticipantsManager.mk [("Steve", Participant.new "Steve" false)]
        [("Steve", NodeData.mk none (some 7) none)]).remove "Steve").add "Steve" false).participants "Steve" =
      some ((Participant.new "Steve" false).setAudioNodes none (some 7) none) := by
  have h := remove_preserves_pending
      (ParticipantsManager.mk [("Steve", Participant.new "Steve" false)]
        [("Steve", NodeData.mk none (some 7) none)])
      "Steve" "Alex" false (NodeData.mk none (some 7) none) (NodeData.mk none none none)
  exact ⟨h.1, (h.2.1 (by rfl)).1⟩

/-! ### World snapshot and MinecraftIntegration.updateParticipantVolumes
(src/script.js lines 1167-1201)

A snapshot player carries `{name, location, data}`.  Of `data` only the
fields read by `updateParticipantVolumes` and its caller are modelled
(`isMuted`, `isDeafened`); `micVolume`, environment flags and
`customVolumes` feed other parts of `processUpdate` that are out of scope
here. -/

structure PlayerData where
  isMuted : Bool
  isDeafened : Bool

structure Player where
  name : String
  location : Vec3
  data : PlayerData

/-- The case-insensitive, trimmed name comparison used by `processUpdate`
and `updateParticipantVolumes`:
`pl.name.trim().toLowerCase() === gamertag.trim().toLowerCase()`. -/
def matchesName (pl : Player) (gamertag : String) : Bool :=
  pl.name.trim.toLower == gamertag.trim.toLower

/-- `playersList.find(pl => ...)` as used in `updateParticipantVolumes`. -/
def findPlayer (playersList : List Player) (gamertag : String) : Option Player :=
  playersList.find? (fun pl => matchesName pl gamertag)

theorem matchesName_refl (pl : Player) : matchesName pl pl.name = true := by
  unfold matchesName
  exact beq_self_eq_true _

theorem findPlayer_singleton (pl : Player) (gamertag : String)
    (h : matchesName pl gamertag = true) : findPlayer [pl] gamertag = some pl := by
  unfold findPlayer
  exact List.find?_cons_of_pos _ h

/-- The per-entry body of `updateParticipantVolumes` (src/script.js lines
1168-1200), applied to one `(gamertag, participant)` pair of the registry.
`remoteDeafened` is `this.remoteDeafened`; `maxDistance` is the mutable
`this.distanceCalculator.maxDistance` current at the time of the call. -/
noncomputable def updateParticipantVolume (remoteDeafened : Bool) (maxDistance : ℝ)
    (myPlayer : Player) (playersList : List Player)
    (gamertag : String) (p : Participant) : Participant :=
  if p.isSelf then p
  else
    match findPlayer playersList gamertag with
    | some otherPlayer =>
        if otherPlayer.data.isMuted then
          (p.updateDistance 0).updateVolume 0
        else if remoteDeafened then
          p.updateVolume 0
        else
          let distance := calculate myPlayer.location otherPlayer.location
          let volume := volumeFromDistance maxDistance distance
          (p.updateDistance distance).updateVolume volume
    | none => p.updateVolume 0

/-- `MinecraftIntegration.updateParticipantVolumes`: `forEach` over the
participant registry. -/
noncomputable def updateParticipantVolumes (remoteDeafened : Bool) (maxDistance : ℝ)
    (myPlayer : Player) (playersList : List Player)
    (pm : ParticipantsManager) : ParticipantsManager :=
  { pm with participants := pm.participants.map (fun e =>
      (e.1, updateParticipantVolume remoteDeafened maxDistance myPlayer playersList e.1 e.2)) }

/-- C3: for every non-self participant present in the world snapshot, the
volume-update step applies the precedence rules in order: a participant
whose own `isMuted` flag is set gets volume 0 and distance 0; otherwise a
`remoteDeafened` listener forces volume 0 with the distance left unchanged;
otherwise the distance is the 3D distance between the two players and the
volume is the distance-derived value using the current `maxDistance`
(scaled, as always in `updateVolume`, by the participant's custom volume
multiplier, which defaults to 1). -/
theorem updateParticipantVolumes_precedence (remoteDeafened : Bool)
    (maxDistance : ℝ) (myPlayer : Player) (playersList : List Player)
    (pm : ParticipantsManager) (gamertag : String) (p : Participant)
    (otherPlayer : Player)
    (hmem : (gamertag, p) ∈ pm.participants)
    (hself : p.isSelf = false)
    (hfind : findPlayer playersList gamertag = some otherPlayer) :
    (gamertag, updateParticipantVolume remoteDeafened maxDistance myPlayer playersList gamertag p)
      ∈ (updateParticipantVolumes remoteDeafened maxDistance myPlayer playersList pm).participants
    ∧ (otherPlayer.data.isMuted = true →
        (updateParticipantVolume remoteDeafened maxDistance myPlayer playersList gamertag p).volume = 0 ∧
        (updateParticipantVolume remoteDeafened maxDistance myPlayer playersList gamertag p).distance = 0)
    ∧ (otherPlayer.data.isMuted = false → remoteDeafened = true →
        (updateParticipantVolume remoteDeafened maxDistance myPlayer playersList gamertag p).volume = 0 ∧
        (updateParticipantVolume remoteDeafened maxDistance myPlayer playersList gamertag p).distance = p.distance)
    ∧ (otherPlayer.data.isMuted = false → remoteDeafened = false →
        (updateParticipantVolume remoteDeafened maxDistance myPlayer playersList gamertag p).distance =
          calculate myPlayer.location otherPlayer.location ∧
        (updateParticipantVolume remoteDeafened maxDistance myPlayer playersList gamertag p).volume =
          volumeFromDistance maxDistance (calculate myPlayer.location otherPlayer.location) * p.customVolume ∧
        (p.customVolume = 1 →
          (updateParticipantVolume remoteDeafened maxDistance myPlayer playersList gamertag p).volume =
            volumeFromDistance maxDistance (calculate myPlayer.location otherPlayer.location))) := by
  refine ⟨?_, ?_, ?_, ?_⟩
  · exact List.mem_map_of_mem
      (fun e => (e.1, updateParticipantVolume remoteDeafened maxDistance myPlayer playersList e.1 e.2))
      hmem
  · intro hmut
    simp [updateParticipantVolume, hself, hfind, hmut,
      Participant.updateVolume, Participant.updateDistance]
  · intro hmut hdeaf
    simp [updateParticipantVolume, hself, hfind, hmut, hdeaf,
      Participant.updateVolume, Participant.updateDistance]
  · intro hmut hdeaf
    refine ⟨?_, ?_, ?_⟩
    · simp [updateParticipantVolume, hself, hfind, hmut, hdeaf,
        Participant.updateVolume, Participant.updateDistance]
    · simp [updateParticipantVolume, hself, hfind, hmut, hdeaf,
        Participant.updateVolume, Participant.updateDistance]
    · intro hcv
      simp [updateParticipantVolume, hself, hfind, hmut, hdeaf, hcv,
        Participant.updateVolume, Participant.updateDistance]

theorem updateParticipantVolumes_precedence_witness :
    (("bob", Participant.new "bob" false) ∈
        (ParticipantsManager.mk [("bob", Participant.new "bob" false)] []).participants) ∧
    ((Participant.new "bob" false).isSelf = false) ∧
    (findPlayer [Player.mk "bob" (Vec3.mk 3 4 0) (PlayerData.mk false false)] "bob" =
      some (Player.mk "bob" (Vec3.mk 3 4 0) (PlayerData.mk false false))) ∧
    (updateParticipantVolume false 20 (Player.mk "me" (Vec3.mk 0 0 0) (PlayerData.mk false false))
        [Player.mk "bob" (Vec3.mk 3 4 0) (PlayerData.mk false false)] "bob"
        (Participant.new "bob" false)).distance =
      calculate (Vec3.mk 0 0 0) (Vec3.mk 3 4 0) ∧
    (updateParticipantVolume false 20 (Player.mk "me" (Vec3.mk 0 0 0) (PlayerData.mk false false))
        [Player.mk "bob" (Vec3.mk 3 4 0) (PlayerData.mk false false)] "bob"
        (Participant.new "bob" false)).volume =
      volumeFromDistance 20 (calculate (Vec3.mk 0 0 0) (Vec3.mk 3 4 0)) := by
  have h := updateParticipantVolumes_precedence false 20
      (Player.mk "me" (Vec3.mk 0 0 0) (PlayerData.mk false false))
      [Player.mk "bob" (Vec3.mk 3 4 0) (PlayerData.mk false false)]
      (ParticipantsManager.mk [("bob", Participant.new "bob" false)] [])
      "bob" (Participant.new "bob" false)
      (Player.mk "bob" (Vec3.mk 3 4 0) (PlayerData.mk false false))
      (List.mem_singleton.mpr rfl) rfl (findPlayer_singleton _ _ (matchesName_refl _))
  have h3 := h.2.2.2 rfl rfl
  exact ⟨List.mem_singleton.mpr rfl, rfl,
    findPlayer_singleton _ _ (matchesName_refl _), h3.1, h3.2.2 rfl⟩

/-! ### AudioEffectsManager (src/script.js lines 5-216)

State relevant to `applyEffect`: `currentEffect`, `inputNode` (a Tone.Gain
handle, `null` until `createInputNode`), `processedStream` (the
MediaStream produced by the current effect chain, `null` until the first
accepted `applyEffect`), and `lastEffectChange` (the `Date.now()` value of
the last accepted change).  The Tone.js node graph built in the `switch`
(`dynamicNodes`, filters, reverbs) is the DSP internals the spec scopes
out; only the stream identity it produces is modelled (`dest`, a fresh
`createMediaStreamDestination()` stream passed in as a parameter).  The
list of replaced tracks is returned alongside the new state:
`peerConnections` is the list of peers that currently have an audio
sender, and the returned list names the peers whose sender track was
replaced by `replaceTrack`. -/

structure AudioEffectsManager where
  currentEffect : String
  inputNode : Option ℕ
  processedStream : Option ℕ
  lastEffectChange : ℕ
  deriving DecidableEq

/-- `AudioEffectsManager.applyEffect(effect, peerConnections)`
(src/script.js lines 36-190).  `now` is `Date.now()` at entry (JS
subtraction of timestamps agrees with truncated `ℕ` subtraction for the
`< 1000` test: a negative JS difference and a truncated-to-0 difference
are both `< 1000`). -/
def applyEffect (st : AudioEffectsManager) (effect : String) (now : ℕ)
    (dest : ℕ) (peerConnections : List String) :
    AudioEffectsManager × List String :=
  if st.inputNode.isNone then (st, [])
  else if st.currentEffect = effect ∧ st.processedStream.isSome then (st, [])
  else if st.processedStream.isSome ∧ now - st.lastEffectChange < 1000 then (st, [])
  else
    ({ st with
        lastEffectChange := now
        currentEffect := effect
        processedStream := some dest },
     if peerConnections.isEmpty then [] else peerConnections)

/-- C5: `applyEffect(name)` is a no-op when `name` equals the current
effect and an output stream already exists; and any `applyEffect` request
arriving less than 1000 ms after the last accepted effect change (when an
output stream exists) is dropped silently: the state (stream, current
effect, timestamp) is unchanged and no track replacement is performed. -/
theorem applyEffect_throttle (st : AudioEffectsManager) (effect other : String)
    (now dest : ℕ) (peerConnections : List String) :
    (st.currentEffect = effect → st.processedStream.isSome = true →
      applyEffect st effect now dest peerConnections = (st, [])) ∧
    (st.processedStream.isSome = true → now < st.lastEffectChange + 1000 →
      applyEffect st other now dest peerConnections = (st, [])) := by
  constructor
  · intro heff hstream
    unfold applyEffect
    by_cases hin : st.inputNode.isNone
    · rw [if_pos hin]
    · rw [if_neg hin, if_pos ⟨heff, hstream⟩]
  · intro hstream hnow
    unfold applyEffect
    by_cases hin : st.inputNode.isNone
    · rw [if_pos hin]
    · rw [if_neg hin]
      by_cases heff : st.currentEffect = other ∧ st.processedStream.isSome
      · rw [if_pos heff]
      · rw [if_neg heff, if_pos ⟨hstream, by omega⟩]

theorem applyEffect_throttle_witness :
    ((AudioEffectsManager.mk "none" (some 1) (some 2) 5000).currentEffect = "none") ∧
    ((AudioEffectsManager.mk "none" (some 1) (some 2) 5000).processedStream.isSome = true) ∧
    (5600 < (AudioEffectsManager.mk "none" (some 1) (some 2) 5000).lastEffectChange + 1000) ∧
    applyEffect (AudioEffectsManager.mk "none" (some 1) (some 2) 5000) "none" 5600 3 ["Steve"] =
      (AudioEffectsManager.mk "none" (some 1) (some 2) 5000, []) ∧
    applyEffect (AudioEffectsManager.mk "none" (some 1) (some 2) 5000) "cave" 5600 3 ["Steve"] =
      (AudioEffectsManager.mk "none" (some 1) (some 2) 5000, []) := by
  have h := applyEffect_throttle (AudioEffectsManager.mk "none" (some 1) (some 2) 5000)
      "none" "cave" 5600 3 ["Steve"]
  exact ⟨rfl, rfl, by decide, h.1 rfl rfl, h.2 rfl (by decide)⟩

/-! ### WebRTCManager (src/script.js lines 645-943)

An `RTCPeerConnection` is modelled by the fields the orchestration layer
reads and writes: the ad hoc flags `_isInitialConnection` and
`_reconnectAttempts` bolted onto the object, the W3C `signalingState`
(`createOffer`+`setLocalDescription(offer)` moves `stable →
have-local-offer`; `setRemoteDescription(offer)`+`setLocalDescription(answer)`
ends at `stable`; `setRemoteDescription(answer)` moves `have-local-offer →
stable`), a count of remote ICE candidates applied by `addIceCandidate`,
and an `id` standing for the identity of the underlying platform object.
`connectionState`/`iceConnectionState` transitions are delivered by the
platform and appear only as the events that trigger the handlers.
SDP payloads are opaque and omitted from messages.  `wsReady` models
`this.ws && this.ws.readyState === 1`. -/

inductive RTCSignalingState
  | stable
  | haveLocalOffer
  | haveRemoteOffer
  deriving DecidableEq

structure PeerConn where
  id : ℕ
  isInitialConnection : Bool
  reconnectAttempts : ℕ
  signalingState : RTCSignalingState
  remoteCandidates : ℕ
  deriving DecidableEq

structure WebRTCManager where
  peerConnections : List (String × PeerConn)
  wsReady : Bool
  currentGamertag : String
  deriving DecidableEq

/-- The signaling messages of §6 of the spec (`type` discriminator plus
fields; SDP/candidate payloads are opaque). -/
inductive SignalMsg
  | join (gamertag : String)
  | leave (gamertag : String)
  | offer (fromTag toTag : String)
  | answer (fromTag toTag : String)
  | iceCandidate (fromTag toTag : String) (candidate : Option ℕ)
  | participantsList (list : List String)
  | requestParticipants
  | heartbeat (gamertag : String)
  deriving DecidableEq

/-- A freshly constructed `RTCPeerConnection` as set up by
`createPeerConnection` (src/script.js lines 670-693): `signalingState`
"stable", `_isInitialConnection = true`, `_reconnectAttempts = 0`. -/
def newPeerConn (freshId : ℕ) : PeerConn :=
  { id := freshId, isInitialConnection := true, reconnectAttempts := 0,
    signalingState := RTCSignalingState.stable, remoteCandidates := 0 }

/-- `WebRTCManager.createPeerConnection` (src/script.js lines 664-839):
returns the existing connection when present, otherwise registers a fresh
one (wiring of local outgoing tracks and callback registration are side
effects on the platform object).  `freshId` is the identity of the new
platform object. -/
def createPeerConnection (st : WebRTCManager) (remoteGamertag : String)
    (freshId : ℕ) : WebRTCManager × PeerConn :=
  match alGet st.peerConnections remoteGamertag with
  | some pc => (st, pc)
  | none =>
      let pc := newPeerConn freshId
      ({ st with peerConnections := alSet st.peerConnections remoteGamertag pc }, pc)

/-- `WebRTCManager.closePeerConnection` (src/script.js lines 921-928):
`pc.close()` is a platform side effect; the registry entry is deleted. -/
def closePeerConnection (st : WebRTCManager) (gamertag : String) : WebRTCManager :=
  match alGet st.peerConnections gamertag with
  | some _ => { st with peerConnections := alDelete st.peerConnections gamertag }
  | none => st

/-- `WebRTCManager.closeAllConnections` (src/script.js lines 930-934). -/
def closeAllConnections (st : WebRTCManager) : WebRTCManager :=
  { st with peerConnections := [] }

/-- The `pc.onnegotiationneeded` handler registered in
`createPeerConnection` (src/script.js lines 696-731), as a transition on
the manager state for the link `remoteGamertag`.  On proceeding,
`createOffer` + `setLocalDescription` move the link to `have-local-offer`
and the offer is sent when the WebSocket is open. -/
def onNegotiationNeeded (st : WebRTCManager) (remoteGamertag : String) :
    WebRTCManager × List SignalMsg :=
  match alGet st.peerConnections remoteGamertag with
  | none => (st, [])
  | some pc =>
      if pc.isInitialConnection then (st, [])
      else if pc.signalingState ≠ RTCSignalingState.stable then (st, [])
      else
        let pc' := { pc with signalingState := RTCSignalingState.haveLocalOffer }
        ({ st with peerConnections := alSet st.peerConnections remoteGamertag pc' },
         if st.wsReady then [SignalMsg.offer st.currentGamertag remoteGamertag] else [])

/-- Helper: `createPeerConnection` returns the existing link unchanged. -/
theorem createPeerConnection_of_mem (st : WebRTCManager) (remoteGamertag : String)
    (freshId : ℕ) (pc : PeerConn)
    (hpc : alGet st.peerConnections remoteGamertag = some pc) :
    createPeerConnection st remoteGamertag freshId = (st, pc) := by
  unfold createPeerConnection
  rw [hpc]

/-- C9: `createPeerConnection` is idempotent: for a remote that already has
a link it returns the existing link with the manager state unchanged; on
first call it creates a link whose `_isInitialConnection` flag is `true`
and whose `_reconnectAttempts` count is `0`, and registers it. -/
theorem createPeerConnection_idempotent (st : WebRTCManager)
    (remoteGamertag : String) (freshId : ℕ) (pc : PeerConn) :
    (alGet st.peerConnections remoteGamertag = some pc →
      createPeerConnection st remoteGamertag freshId = (st, pc)) ∧
    (alGet st.peerConnections remoteGamertag = none →
      (createPeerConnection st remoteGamertag freshId).2.isInitialConnection = true ∧
      (createPeerConnection st remoteGamertag freshId).2.reconnectAttempts = 0 ∧
      alGet (createPeerConnection st remoteGamertag freshId).1.peerConnections remoteGamertag =
        some (createPeerConnection st remoteGamertag freshId).2) := by
  constructor
  · intro hpc
    exact createPeerConnection_of_mem st remoteGamertag freshId pc hpc
  · intro habs
    unfold createPeerConnection
    rw [habs]
    exact ⟨rfl, rfl, alGet_alSet_self _ _ _⟩

theorem createPeerConnection_idempotent_witness :
    (alGet (WebRTCManager.mk [("Alice", newPeerConn 4)] true "Me").peerConnections "Alice" =
      some (newPeerConn 4)) ∧
    createPeerConnection (WebRTCManager.mk [("Alice", newPeerConn 4)] true "Me") "Alice" 9 =
      (WebRTCManager.mk [("Alice", newPeerConn 4)] true "Me", newPeerConn 4) ∧
    (alGet (WebRTCManager.mk [] true "Me").peerConnections "Bob" = none) ∧
    (createPeerConnection (WebRTCManager.mk [] true "Me") "Bob" 9).2.isInitialConnection = true ∧
    (createPeerConnection (WebRTCManager.mk [] true "Me") "Bob" 9).2.reconnectAttempts = 0 := by
  have h1 := (createPeerConnection_idempotent
      (WebRTCManager.mk [("Alice", newPeerConn 4)] true "Me") "Alice" 9 (newPeerConn 4)).1
      (by decide)
  have h2 := (createPeerConnection_idempotent
      (WebRTCManager.mk [] true "Me") "Bob" 9 (newPeerConn 4)).2 (by decide)
  exact ⟨by decide, h1, by decide, h2.1, h2.2.1⟩

/-- C7: while a link's `_isInitialConnection` flag is true, a
negotiation-needed event produces no offer and no signaling send; once the
flag is false, a renegotiation offer is generated and sent only if the
link's signaling state is "stable", and otherwise the event is skipped
(the state is unchanged and nothing is queued). -/
theorem onNegotiationNeeded_guards (st : WebRTCManager) (remoteGamertag : String)
    (pc : PeerConn) (hpc : alGet st.peerConnections remoteGamertag = some pc) :
    (pc.isInitialConnection = true → onNegotiationNeeded st remoteGamertag = (st, [])) ∧
    (pc.isInitialConnection = false → pc.signalingState ≠ RTCSignalingState.stable →
      onNegotiationNeeded st remoteGamertag = (st, [])) ∧
    (pc.isInitialConnection = false → pc.signalingState = RTCSignalingState.stable →
      st.wsReady = true →
      (onNegotiationNeeded st remoteGamertag).2 =
        [SignalMsg.offer st.currentGamertag remoteGamertag] ∧
      alGet (onNegotiationNeeded st remoteGamertag).1.peerConnections remoteGamertag =
        some { pc with signalingState := RTCSignalingState.haveLocalOffer }) := by
  refine ⟨?_, ?_, ?_⟩
  · intro hinit
    unfold onNegotiationNeeded
    rw [hpc]
    simp [hinit]
  · intro hinit hstable
    unfold onNegotiationNeeded
    rw [hpc]
    simp [hinit, hstable]
  · intro hinit hstable hws
    unfold onNegotiationNeeded
    rw [hpc]
    simp [hinit, hstable, hws, alGet_alSet_self]

theorem onNegotiationNeeded_guards_witness :
    (alGet (WebRTCManager.mk [("Alice", newPeerConn 4)] true "Me").peerConnections "Alice" =
      some (newPeerConn 4)) ∧
    ((newPeerConn 4).isInitialConnection = true) ∧
    onNegotiationNeeded (WebRTCManager.mk [("Alice", newPeerConn 4)] true "Me") "Alice" =
      (WebRTCManager.mk [("Alice", newPeerConn 4)] true "Me", []) := by
  have h := (onNegotiationNeeded_guards
      (WebRTCManager.mk [("Alice", newPeerConn 4)] true "Me") "Alice" (newPeerConn 4)
      (by decide)).1 (by decide)
  exact ⟨by decide, by decide, h⟩

/-- `WebRTCManager.attemptReconnect` (src/script.js lines 841-877):
`attempts = (oldPc?._reconnectAttempts || 0) + 1`; when `attempts > 3` it
logs exhaustion and returns **without closing or removing** the old
connection.  Otherwise it closes the old link, waits 1000 ms (time is not
modelled), recreates the link, stamps `_reconnectAttempts = attempts` on
it, creates and applies a local offer, and sends it when the WebSocket is
open. -/
def attemptReconnect (st : WebRTCManager) (remoteGamertag : String)
    (freshId : ℕ) : WebRTCManager × List SignalMsg :=
  let attempts := (match alGet st.peerConnections remoteGamertag with
    | some oldPc => oldPc.reconnectAttempts
    | none => 0) + 1
  if 3 < attempts then (st, [])
  else
    let st1 := closePeerConnection st remoteGamertag
    let res := createPeerConnection st1 remoteGamertag freshId
    let pc' := { res.2 with
        reconnectAttempts := attempts
        signalingState := RTCSignalingState.haveLocalOffer }
    ({ res.1 with peerConnections := alSet res.1.peerConnections remoteGamertag pc' },
     if st.wsReady then [SignalMsg.offer st.currentGamertag remoteGamertag] else [])

/-- C6 counterexample: with a link for "Bob" whose `_reconnectAttempts` is
already 3, a further `failed` event calls `attemptReconnect`, which
returns before closing anything: the link is still present in the
registry (not absent, as the claim states) and no offer is sent. -/
theorem attemptReconnect_exhausted_link_not_absent :
    alGet (attemptReconnect
        (WebRTCManager.mk [("Bob", PeerConn.mk 1 false 3 RTCSignalingState.stable 0)] true "Me")
        "Bob" 2).1.peerConnections "Bob" =
      some (PeerConn.mk 1 false 3 RTCSignalingState.stable 0) ∧
    (attemptReconnect
        (WebRTCManager.mk [("Bob", PeerConn.mk 1 false 3 RTCSignalingState.stable 0)] true "Me")
        "Bob" 2).2 = [] := by
  decide

/-- C6 (amended): each `failed` event increments the reconnect attempt
count; attempts 1, 2, 3 each close the old link, wait a fixed delay,
create a fresh link stamped with the new attempt count, and send a new
offer; when the count would exceed 3 the reconnect performs no new
connection and logs exhaustion, leaving the manager state unchanged — the
failed link remains present in the registry (it is not closed or
removed), and because its attempt count stays at 3 every further `failed`
event is likewise a no-op. -/
theorem attemptReconnect_policy (st : WebRTCManager) (remoteGamertag : String)
    (freshId : ℕ) (pc : PeerConn)
    (hpc : alGet st.peerConnections remoteGamertag = some pc) :
    (pc.reconnectAttempts + 1 ≤ 3 → st.wsReady = true →
      alGet (attemptReconnect st remoteGamertag freshId).1.peerConnections remoteGamertag =
        some (PeerConn.mk freshId true (pc.reconnectAttempts + 1)
          RTCSignalingState.haveLocalOffer 0) ∧
      (attemptReconnect st remoteGamertag freshId).2 =
        [SignalMsg.offer st.currentGamertag remoteGamertag]) ∧
    (3 < pc.reconnectAttempts + 1 →
      attemptReconnect st remoteGamertag freshId = (st, []) ∧
      alGet (attemptReconnect st remoteGamertag freshId).1.peerConnections remoteGamertag =
        some pc) := by
  constructor
  · intro hle hws
    unfold attemptReconnect closePeerConnection createPeerConnection
    rw [hpc]
    simp only [hpc, if_neg (by omega : ¬ 3 < pc.reconnectAttempts + 1)]
    rw [alGet_alDelete_self]
    simp [alGet_alSet_self, newPeerConn, hws]
  · intro hgt
    have hres : attemptReconnect st remoteGamertag freshId = (st, []) := by
      unfold attemptReconnect
      rw [hpc]
      simp only [if_pos hgt]
    exact ⟨hres, by rw [hres]; exact hpc⟩

theorem attemptReconnect_policy_witness :
    (alGet (WebRTCManager.mk [("Bob", PeerConn.mk 1 false 0 RTCSignalingState.stable 0)] true "Me").peerConnections "Bob" =
      some (PeerConn.mk 1 false 0 RTCSignalingState.stable 0)) ∧
    alGet (attemptReconnect
        (WebRTCManager.mk [("Bob", PeerConn.mk 1 false 0 RTCSignalingState.stable 0)] true "Me")
        "Bob" 7).1.peerConnections "Bob" =
      some (PeerConn.mk 7 true 1 RTCSignalingState.haveLocalOffer 0) ∧
    (attemptReconnect
        (WebRTCManager.mk [("Bob", PeerConn.mk 1 false 0 RTCSignalingState.stable 0)] true "Me")
        "Bob" 7).2 = [SignalMsg.offer "Me" "Bob"] := by
  have h := (attemptReconnect_policy
      (WebRTCManager.mk [("Bob", PeerConn.mk 1 false 0 RTCSignalingState.stable 0)] true "Me")
      "Bob" 7 (PeerConn.mk 1 false 0 RTCSignalingState.stable 0)
      (by decide)).1 (by decide) (by decide)
  exact ⟨by decide, h.1, h.2⟩

/-- `WebRTCManager.reconnectAllPeers` (src/script.js lines 879-919): closes
every link, waits once, then sequentially (with inter-step spacing, time
not modelled) recreates each link and sends a fresh offer.  Fresh platform
objects are numbered from `freshBase`. -/
def reconnectAllPeers (st : WebRTCManager) (freshBase : ℕ) :
    WebRTCManager × List SignalMsg :=
  let gamertags := st.peerConnections.map (fun e => e.1)
  if gamertags.isEmpty then (st, [])
  else
    let st0 := closeAllConnections st
    gamertags.enum.foldl (fun acc ie =>
      let res := createPeerConnection acc.1 ie.2 (freshBase + ie.1)
      let pc' := { res.2 with signalingState := RTCSignalingState.haveLocalOffer }
      ({ res.1 with peerConnections := alSet res.1.peerConnections ie.2 pc' },
       acc.2 ++ if st.wsReady then [SignalMsg.offer st.currentGamertag ie.2] else []))
      (st0, [])

/-! ### VoiceChatApp.handleSignaling (src/script.js lines 1833-1919)

`heartbeat` and `minecraft-update` are filtered out earlier in
`onWebSocketMessage`; `handleSignaling` sees the remaining messages.  The
`updateUI()` calls are DOM side effects.  The sends inside
`handleSignaling` go through `this.ws.send` unguarded (an absent socket
throws into the surrounding catch), so they are modelled as unconditional
emissions. -/

structure VoiceChatApp where
  currentGamertag : String
  participantsManager : ParticipantsManager
  webrtc : WebRTCManager

def handleSignaling (app : VoiceChatApp) (data : SignalMsg) (freshId : ℕ) :
    VoiceChatApp × List SignalMsg :=
  match data with
  | SignalMsg.join gamertag =>
      if gamertag ≠ app.currentGamertag then
        let pm := app.participantsManager.add gamertag false
        match alGet app.webrtc.peerConnections gamertag with
        | none =>
            let res := createPeerConnection app.webrtc gamertag freshId
            let pc' := { res.2 with signalingState := RTCSignalingState.haveLocalOffer }
            let rtc := { res.1 with
              peerConnections := alSet res.1.peerConnections gamertag pc' }
            ({ app with participantsManager := pm, webrtc := rtc },
             [SignalMsg.offer app.currentGamertag gamertag])
        | some _ => ({ app with participantsManager := pm }, [])
      else (app, [])
  | SignalMsg.leave gamertag =>
      let pm := app.participantsManager.remove gamertag
      let rtc1 := closePeerConnection app.webrtc gamertag
      let res := reconnectAllPeers rtc1 freshId
      ({ app with participantsManager := pm, webrtc := res.1 }, res.2)
  | SignalMsg.offer fromTag toTag =>
      if toTag = app.currentGamertag then
        let pm := app.participantsManager.add fromTag false
        let res := createPeerConnection app.webrtc fromTag freshId
        if res.2.signalingState = RTCSignalingState.stable ∨
            res.2.signalingState = RTCSignalingState.haveLocalOffer then
          let pc' := { res.2 with signalingState := RTCSignalingState.stable }
          let rtc := { res.1 with
            peerConnections := alSet res.1.peerConnections fromTag pc' }
          ({ app with participantsManager := pm, webrtc := rtc },
           [SignalMsg.answer app.currentGamertag fromTag])
        else ({ app with participantsManager := pm, webrtc := res.1 }, [])
      else (app, [])
  | SignalMsg.answer fromTag toTag =>
      if toTag = app.currentGamertag then
        match alGet app.webrtc.peerConnections fromTag with
        | some pc =>
            if pc.signalingState = RTCSignalingState.haveLocalOffer then
              let pc' := { pc with signalingState := RTCSignalingState.stable }
              ({ app with webrtc := { app.webrtc with
                  peerConnections := alSet app.webrtc.peerConnections fromTag pc' } }, [])
            else (app, [])
        | none => (app, [])
      else (app, [])
  | SignalMsg.iceCandidate fromTag toTag candidate =>
      if toTag = app.currentGamertag then
        match alGet app.webrtc.peerConnections fromTag, candidate with
        | some pc, some _ =>
            let pc' := { pc with remoteCandidates := pc.remoteCandidates + 1 }
            ({ app with webrtc := { app.webrtc with
                peerConnections := alSet app.webrtc.peerConnections fromTag pc' } }, [])
        | _, _ => (app, [])
      else (app, [])
  | SignalMsg.participantsList list =>
      let addOne := fun (pm : ParticipantsManager) (gt : String) =>
        if gt ≠ app.currentGamertag then pm.add gt false else pm
      ({ app with participantsManager := list.foldl addOne app.participantsManager }, [])
  | SignalMsg.requestParticipants => (app, [])
  | SignalMsg.heartbeat _ => (app, [])

/-- C8: for every inbound signaling message: a message carrying a `to`
field (offer/answer/ice-candidate) is discarded unless `to` equals the
local gamertag; a `join` whose gamertag equals the local gamertag is
discarded; an offer is accepted and answered only if the target link's
signaling state is stable or have-local-offer; an answer is applied only
if the link is in have-local-offer; an ice-candidate is applied only if a
link for the sender exists. -/
theorem handleSignaling_routing (app : VoiceChatApp) (freshId : ℕ) :
    (∀ f t, t ≠ app.currentGamertag →
      handleSignaling app (SignalMsg.offer f t) freshId = (app, []) ∧
      handleSignaling app (SignalMsg.answer f t) freshId = (app, []) ∧
      ∀ c, handleSignaling app (SignalMsg.iceCandidate f t c) freshId = (app, [])) ∧
    (handleSignaling app (SignalMsg.join app.currentGamertag) freshId = (app, [])) ∧
    (∀ f pc, alGet app.webrtc.peerConnections f = some pc →
      (pc.signalingState = RTCSignalingState.stable ∨
          pc.signalingState = RTCSignalingState.haveLocalOffer →
        (handleSignaling app (SignalMsg.offer f app.currentGamertag) freshId).2 =
          [SignalMsg.answer app.currentGamertag f] ∧
        alGet (handleSignaling app (SignalMsg.offer f app.currentGamertag) freshId).1.webrtc.peerConnections f =
          some { pc with signalingState := RTCSignalingState.stable }) ∧
      (pc.signalingState = RTCSignalingState.haveRemoteOffer →
        (handleSignaling app (SignalMsg.offer f app.currentGamertag) freshId).2 = [] ∧
        (handleSignaling app (SignalMsg.offer f app.currentGamertag) freshId).1.webrtc =
          app.webrtc)) ∧
    (∀ f pc, alGet app.webrtc.peerConnections f = some pc →
      (pc.signalingState = RTCSignalingState.haveLocalOffer →
        alGet (handleSignaling app (SignalMsg.answer f app.currentGamertag) freshId).1.webrtc.peerConnections f =
          some { pc with signalingState := RTCSignalingState.stable }) ∧
      (pc.signalingState ≠ RTCSignalingState.haveLocalOffer →
        handleSignaling app (SignalMsg.answer f app.currentGamertag) freshId = (app, []))) ∧
    (∀ f, alGet app.webrtc.peerConnections f = none →
      handleSignaling app (SignalMsg.answer f app.currentGamertag) freshId = (app, []) ∧
      ∀ c, handleSignaling app (SignalMsg.iceCandidate f app.currentGamertag c) freshId =
        (app, [])) ∧
    (∀ f pc c, alGet app.webrtc.peerConnections f = some pc →
      alGet (handleSignaling app
          (SignalMsg.iceCandidate f app.currentGamertag (some c)) freshId).1.webrtc.peerConnections f =
        some { pc with remoteCandidates := pc.remoteCandidates + 1 }) := by
  refine ⟨?_, ?_, ?_, ?_, ?_, ?_⟩
  · intro f t ht
    refine ⟨?_, ?_, ?_⟩
    · simp [handleSignaling, ht]
    · simp [handleSignaling, ht]
    · intro c
      simp [handleSignaling, ht]
  · simp [handleSignaling]
  · intro f pc hpc
    have hcr := createPeerConnection_of_mem app.webrtc f freshId pc hpc
    constructor
    · intro hphase
      simp only [handleSignaling, hcr, if_pos rfl, if_pos hphase]
      exact ⟨rfl, alGet_alSet_self _ _ _⟩
    · intro hphase
      have hnot : ¬ (pc.signalingState = RTCSignalingState.stable ∨
          pc.signalingState = RTCSignalingState.haveLocalOffer) := by
        rw [hphase]
        simp
      simp only [handleSignaling, hcr, if_pos rfl, if_neg hnot]
      exact ⟨rfl, rfl⟩
  · intro f pc hpc
    constructor
    · intro hphase
      simp only [handleSignaling, hpc, if_pos rfl, if_pos hphase]
      exact alGet_alSet_self _ _ _
    · intro hphase
      simp only [handleSignaling, hpc, if_pos rfl, if_neg hphase, ite_self]
  · intro f habs
    refine ⟨?_, ?_⟩
    · simp only [handleSignaling, habs, if_pos rfl, ite_self]
    · intro c
      cases c <;> simp only [handleSignaling, habs, if_pos rfl, ite_self]
  · intro f pc c hpc
    simp only [handleSignaling, hpc, if_pos rfl]
    exact alGet_alSet_self _ _ _

theorem handleSignaling_routing_witness :
    ("Bob" ≠ "Me") ∧
    (alGet (VoiceChatApp.mk "Me" (ParticipantsManager.mk [] [])
        (WebRTCManager.mk [("Alice", PeerConn.mk 1 false 0 RTCSignalingState.haveLocalOffer 0)] true "Me")).webrtc.peerConnections "Alice" =
      some (PeerConn.mk 1 false 0 RTCSignalingState.haveLocalOffer 0)) ∧
    handleSignaling (VoiceChatApp.mk "Me" (ParticipantsManager.mk [] [])
        (WebRTCManager.mk [("Alice", PeerConn.mk 1 false 0 RTCSignalingState.haveLocalOffer 0)] true "Me"))
        (SignalMsg.offer "Alice" "Bob") 9 =
      (VoiceChatApp.mk "Me" (ParticipantsManager.mk [] [])
        (WebRTCManager.mk [("Alice", PeerConn.mk 1 false 0 RTCSignalingState.haveLocalOffer 0)] true "Me"), []) ∧
    alGet (handleSignaling (VoiceChatApp.mk "Me" (ParticipantsManager.mk [] [])
        (WebRTCManager.mk [("Alice", PeerConn.mk 1 false 0 RTCSignalingState.haveLocalOffer 0)] true "Me"))
        (SignalMsg.answer "Alice" "Me") 9).1.webrtc.peerConnections "Alice" =
      some (PeerConn.mk 1 false 0 RTCSignalingState.stable 0) := by
  have h := handleSignaling_routing (VoiceChatApp.mk "Me" (ParticipantsManager.mk [] [])
      (WebRTCManager.mk [("Alice", PeerConn.mk 1 false 0 RTCSignalingState.haveLocalOffer 0)] true "Me")) 9
  refine ⟨by decide, by decide, (h.1 "Alice" "Bob" (by decide)).1, ?_⟩
  exact (h.2.2.2.1 "Alice" (PeerConn.mk 1 false 0 RTCSignalingState.haveLocalOffer 0)
    (by decide)).1 rfl

end AstroVoice
